import Mathlib

/-!
# A shallow embedding of the Strava incremental sync engine

This file embeds the operations of `sync_strava.py` — the incremental
synchronization engine that pulls activity records from the Strava API into a
local SQLite database — and proves properties of them.

Modelling conventions:

* The SQLite database is a `DB` value: the `activities` and `activity_splits`
  tables are lists of rows (in rowid order), the `sync_metadata` row holding
  the cursor is an `Option Nat`, and `nextId` is the autoincrement counter for
  the `activities` table (SQLite rowids start at 1).
* Remote HTTP traffic is modelled by response traces supplied as arguments:
  the list endpoint is a function from the `after` watermark to the sequence
  of page responses, the detail endpoint a function from activity id to its
  response, and the token endpoint / athlete probe plain response values.
* JSON payload dictionaries become structures whose fields are `Option`s: a
  `none` field models an absent key.  A Python subscript `d["k"]` on a
  required key is therefore fallible, and an uncaught `KeyError` is modelled
  as `Except.error` carrying the committed database state at the moment of
  the crash (uncommitted statements of the crashing call are rolled back when
  the process dies, committed ones stay).
* Numeric JSON values (distances, times, speeds) are abstracted as `Int`;
  no property proved here depends on fractional parts.
* Wall-clock samples (`datetime.now()`) are passed in as explicit instants.
-/

/-- Python `s.lower()` restricted to the ASCII case mapping, spelled over the
character list so the kernel can evaluate it. -/
def pyLower (s : String) : String := ⟨s.data.map Char.toLower⟩

/-- `startsWithList p l` : `p` is a leading segment of `l`. -/
def startsWithList : List Char → List Char → Bool
  | [], _ => true
  | _ :: _, [] => false
  | p :: ps, c :: cs => p == c && startsWithList ps cs

/-- `hasSubList p l` : `p` occurs as a contiguous segment of `l`. -/
def hasSubList (pat : List Char) : List Char → Bool
  | [] => pat.isEmpty
  | c :: rest => startsWithList pat (c :: rest) || hasSubList pat rest

/-- Python `pat in s` on strings. -/
def strContains (s pat : String) : Bool := hasSubList pat.data s.data

/-- Python `s.startswith(pre)`. -/
def pyStartsWith (s pre : String) : Bool := startsWithList pre.data s.data

/-- Python `x or y` for optional strings: `None` and `""` are falsy, so the
right operand is returned exactly when the left is `None` or empty. -/
def pyOr (x y : Option String) : Option String :=
  match x with
  | none => y
  | some s => if s = "" then y else some s

/-- One element of the JSON array returned by the athlete-activities list
endpoint, restricted to the keys `sync_strava.py` reads.  `none` models an
absent key, so the required-key subscripts (`activity_data["id"]`, `["name"]`,
`["start_date_local"]`, `["distance"]`, `["moving_time"]`,
`["elapsed_time"]`) are fallible while the `.get` lookups are not. -/
structure ActivityData where
  id : Option Int := none
  name : Option String := none
  start_date_local : Option String := none
  sport_type : Option String := none
  type : Option String := none
  workout_type : Option Int := none
  distance : Option Int := none
  moving_time : Option Int := none
  elapsed_time : Option Int := none
  total_elevation_gain : Option Int := none
  elev_high : Option Int := none
  elev_low : Option Int := none
  average_speed : Option Int := none
  max_speed : Option Int := none
  has_heartrate : Option Bool := none
  average_heartrate : Option Int := none
  max_heartrate : Option Int := none
  suffer_score : Option Int := none
  calories : Option Int := none
  perceived_exertion : Option Int := none
  device_name : Option String := none
  trainer : Option Bool := none
  commute : Option Bool := none
  description : Option String := none
deriving DecidableEq, Repr

/-- One element of a `splits_metric` array in an activity-detail payload,
restricted to the keys `insert_splits` reads.  The required-key subscripts
are `["split"]`, `["distance"]`, `["elapsed_time"]`, `["moving_time"]`. -/
structure SplitData where
  split : Option Int := none
  distance : Option Int := none
  elapsed_time : Option Int := none
  moving_time : Option Int := none
  elevation_difference : Option Int := none
  average_speed : Option Int := none
  average_grade_adjusted_speed : Option Int := none
  average_heartrate : Option Int := none
  pace_zone : Option Int := none
deriving DecidableEq, Repr

/-- The activity-detail JSON payload, restricted to the single key
`sync_activities` reads from it. -/
structure ActivityDetail where
  splits_metric : Option (List SplitData) := none
deriving DecidableEq, Repr

/-- A row of the `activities` table, as written by `insert_activity`:
`id` is the SQLite rowid, `strava_id` the remote identifier. -/
structure ActivityRow where
  id : Nat
  strava_id : Int
  name : String
  date : String
  sport_type : Option String
  workout_type : Option Int
  distance : Int
  moving_time : Int
  elapsed_time : Int
  total_elevation_gain : Option Int
  elev_high : Option Int
  elev_low : Option Int
  average_speed : Option Int
  max_speed : Option Int
  has_heartrate : Bool
  average_heartrate : Option Int
  max_heartrate : Option Int
  suffer_score : Option Int
  calories : Option Int
  perceived_exertion : Option Int
  device_name : Option String
  trainer : Bool
  commute : Bool
  description : Option String
  notes : Option String
deriving DecidableEq, Repr

/-- A row of the `activity_splits` table, as written by `insert_splits`. -/
structure SplitRow where
  activity_id : Nat
  split_number : Int
  split_type : String
  distance : Int
  elapsed_time : Int
  moving_time : Int
  elevation_difference : Option Int
  average_speed : Option Int
  average_grade_adjusted_speed : Option Int
  average_heartrate : Option Int
  pace_zone : Option Int
deriving DecidableEq, Repr

/-- The SQLite database: `activities` and `activity_splits` in rowid order,
the `sync_metadata` value under key `last_sync_time`, and the autoincrement
counter for the `activities` rowid. -/
structure DB where
  activities : List ActivityRow
  splits : List SplitRow
  syncMeta : Option Nat
  nextId : Nat
deriving DecidableEq, Repr

/-- The database produced by `init_database`: empty tables, no cursor row;
SQLite rowids start at 1. -/
def dbEmpty : DB := { activities := [], splits := [], syncMeta := none, nextId := 1 }

/-- `get_last_sync_time` (lines 45-53): the stored cursor, or `None`. -/
def getLastSyncTime (db : DB) : Option Nat := db.syncMeta

/-- `update_sync_time` (lines 56-66): `INSERT OR REPLACE` of the cursor row. -/
def updateSyncTime (db : DB) (timestamp : Nat) : DB :=
  { db with syncMeta := some timestamp }

/-- A page response of the athlete-activities list endpoint: a non-2xx status
or a JSON array of activity records. -/
inductive PageResp where
  | err (code : Nat)
  | ok (acts : List ActivityData)
deriving DecidableEq, Repr

/-- A response of the per-activity detail endpoint. -/
inductive DetailResp where
  | err (code : Nat)
  | ok (d : ActivityDetail)
deriving DecidableEq, Repr

/-- The token-endpoint JSON payload, restricted to the key
`refresh_access_token` reads. -/
structure TokenData where
  access_token : String
deriving DecidableEq, Repr

/-- `refresh_access_token` (lines 69-105).  `resp` is the token-endpoint
response (`none` for a non-200 status).  On failure it returns `None` and
leaves the `.env` lines untouched; on success it rewrites exactly the lines
starting with `STRAVA_ACCESS_TOKEN=` and returns the new token. -/
def refreshAccessToken (resp : Option TokenData) (envLines : List String) :
    Option String × List String :=
  match resp with
  | none => (none, envLines)
  | some td =>
      (some td.access_token,
       envLines.map (fun line =>
         if pyStartsWith line "STRAVA_ACCESS_TOKEN=" then
           "STRAVA_ACCESS_TOKEN=" ++ td.access_token ++ "\n"
         else line))

/-- `get_access_token` (lines 108-120).  `accessToken` is the value of
`STRAVA_ACCESS_TOKEN` in the environment; `probes k` is the status code the
athlete-endpoint probe would return on its `k`-th invocation within this
call; `refreshResp` the token-endpoint response should a refresh happen.
Returns the token, the resulting `.env` lines, and the number of probe
requests actually issued. -/
def getAccessToken (accessToken : Option String) (probes : Nat → Nat)
    (refreshResp : Option TokenData) (envLines : List String) :
    Option String × List String × Nat :=
  if probes 0 = 401 then
    match refreshAccessToken refreshResp envLines with
    | (tok, env2) => (tok, env2, 1)
  else
    (accessToken, envLines, 1)

/-- `get_activities_since` (lines 123-167), with the successive page
responses for the fixed `after` watermark supplied as `pages` (an entry
beyond the end of the list would be an empty page, which the loop never
reaches because an empty page already terminates it).  A non-200 page or an
empty page breaks the loop; a page shorter than `perPage` is the last one;
records accumulate across pages.  Note that a non-200 page produces no
error value: the records fetched so far are returned as if the listing had
ended. -/
def getActivitiesSince (perPage : Nat) : List PageResp → List ActivityData
  | [] => []
  | PageResp.err _ :: _ => []
  | PageResp.ok acts :: rest =>
      if acts.isEmpty then []
      else if acts.length < perPage then acts
      else acts ++ getActivitiesSince perPage rest

/-- `get_activity_detail` (lines 170-181): `None` on a non-200 response,
the parsed payload otherwise. -/
def getActivityDetail (resp : DetailResp) : Option ActivityDetail :=
  match resp with
  | DetailResp.err _ => none
  | DetailResp.ok d => some d

/-- `insert_activity` (lines 184-241): look the record up by `strava_id`;
on a hit return the existing rowid with `False` and write nothing; otherwise
insert a fresh row and return its rowid (`cursor.lastrowid`) with `True`.
`Except.error db` models an uncaught `KeyError` on a required key; the
payload is the database state at the crash (nothing of this record was
committed yet). -/
def insertActivity (db : DB) (a : ActivityData) : Except DB (DB × Nat × Bool) :=
  match a.id with
  | none => .error db
  | some sid =>
    match db.activities.find? (fun r => r.strava_id == sid) with
    | some row => .ok (db, row.id, false)
    | none =>
      match a.name with
      | none => .error db
      | some nm =>
      match a.start_date_local with
      | none => .error db
      | some sd =>
      match a.distance with
      | none => .error db
      | some dist =>
      match a.moving_time with
      | none => .error db
      | some mov =>
      match a.elapsed_time with
      | none => .error db
      | some ela =>
        let row : ActivityRow :=
          { id := db.nextId
            strava_id := sid
            name := nm
            date := sd
            sport_type := pyOr a.sport_type a.type
            workout_type := a.workout_type
            distance := dist
            moving_time := mov
            elapsed_time := ela
            total_elevation_gain := a.total_elevation_gain
            elev_high := a.elev_high
            elev_low := a.elev_low
            average_speed := a.average_speed
            max_speed := a.max_speed
            has_heartrate := a.has_heartrate.getD false
            average_heartrate := a.average_heartrate
            max_heartrate := a.max_heartrate
            suffer_score := a.suffer_score
            calories := a.calories
            perceived_exertion := a.perceived_exertion
            device_name := a.device_name
            trainer := a.trainer.getD false
            commute := a.commute.getD false
            description := a.description
            notes := none }
        .ok ({ db with activities := db.activities ++ [row],
                        nextId := db.nextId + 1 },
             db.nextId, true)

/-- The row `insert_splits` builds for one split dictionary; `none` models
the `KeyError` raised on a missing required key. -/
def mkSplitRow (activityDbId : Nat) (splitType : String) (s : SplitData) :
    Option SplitRow :=
  match s.split, s.distance, s.elapsed_time, s.moving_time with
  | some sp, some dist, some ela, some mov =>
      some { activity_id := activityDbId
             split_number := sp
             split_type := splitType
             distance := dist
             elapsed_time := ela
             moving_time := mov
             elevation_difference := s.elevation_difference
             average_speed := s.average_speed
             average_grade_adjusted_speed := s.average_grade_adjusted_speed
             average_heartrate := s.average_heartrate
             pace_zone := s.pace_zone }
  | _, _, _, _ => none

/-- The rows of one `insert_splits` call; `none` if any split raises
`KeyError` (the call commits only at its end, so a crash rolls back every
row of the call). -/
def buildSplitRows (activityDbId : Nat) (splitType : String) :
    List SplitData → Option (List SplitRow)
  | [] => some []
  | s :: rest =>
      match mkSplitRow activityDbId splitType s with
      | none => none
      | some r =>
          match buildSplitRows activityDbId splitType rest with
          | none => none
          | some rs => some (r :: rs)

/-- `insert_splits` (lines 244-279): no-op on an empty (or `None`-ish) split
list, otherwise bulk insert of one row per split and a single commit;
returns the number inserted.  `Except.error db` models a `KeyError` in the
loop: the uncommitted rows of this call are rolled back. -/
def insertSplits (db : DB) (activityDbId : Nat) (splits : List SplitData)
    (splitType : String) : Except DB (DB × Nat) :=
  if splits.isEmpty then .ok (db, 0)
  else
    match buildSplitRows activityDbId splitType splits with
    | none => .error db
    | some rows => .ok ({ db with splits := db.splits ++ rows }, rows.length)

/-- The enrichment predicate of `sync_activities` line 321:
`"run" in activity.get("sport_type", "").lower()`. -/
def isRunActivity (a : ActivityData) : Bool :=
  strContains (pyLower (a.sport_type.getD "")) "run"

/-- The per-record loop of `sync_activities` (lines 313-334), carrying the
`new_count` and `splits_count` accumulators.  `detailResp` is the detail
endpoint's behaviour (the access token of the headers is part of that
trace).  A `KeyError` from `insert_activity` or `insert_splits` propagates,
carrying the committed database state. -/
def processAll (detailResp : Int → DetailResp) (fetchSplits : Bool) :
    DB → Nat → Nat → List ActivityData → Except DB (DB × Nat × Nat)
  | db, newCount, splitsCount, [] => .ok (db, newCount, splitsCount)
  | db, newCount, splitsCount, a :: rest =>
    match insertActivity db a with
    | .error d => .error d
    | .ok (db1, dbId, isNew) =>
      if isNew then
        if fetchSplits && isRunActivity a then
          match a.id with
          | none => .error db1
          | some sid =>
            match getActivityDetail (detailResp sid) with
            | none => processAll detailResp fetchSplits db1 (newCount + 1) splitsCount rest
            | some det =>
              match det.splits_metric with
              | some (sp :: sps) =>
                match insertSplits db1 dbId (sp :: sps) "metric" with
                | .error d => .error d
                | .ok (db2, cnt) =>
                    processAll detailResp fetchSplits db2 (newCount + 1) (splitsCount + cnt) rest
              | _ => processAll detailResp fetchSplits db1 (newCount + 1) splitsCount rest
        else processAll detailResp fetchSplits db1 (newCount + 1) splitsCount rest
      else processAll detailResp fetchSplits db1 newCount splitsCount rest

/-- `sync_activities` (lines 282-341).  `accessToken` is only forwarded in
HTTP headers, which the response traces `listResp` (watermark ↦ page
responses) and `detailResp` (activity id ↦ detail response) already
determine.  `currentYearStart` is the Jan-1-of-current-year timestamp the
code computes when `afterTimestamp` is `None`; `now` is the instant
`datetime.now(timezone.utc)` returns at line 311, i.e. after the listing has
been fetched and before any record is processed.  An empty listing returns
early without touching the cursor; otherwise the records are processed and,
on success, the cursor is set to `now`. -/
def syncActivities (accessToken : String) (listResp : Nat → List PageResp)
    (detailResp : Int → DetailResp) (fetchSplits : Bool)
    (afterTimestamp : Option Nat) (currentYearStart : Nat) (now : Nat)
    (db : DB) : Except DB DB :=
  let afterT := afterTimestamp.getD currentYearStart
  let activities := getActivitiesSince 200 (listResp afterT)
  if activities.isEmpty then .ok db
  else
    match processAll detailResp fetchSplits db 0 0 activities with
    | .error d => .error d
    | .ok (d, _, _) => .ok (updateSyncTime d now)

/-- The database a finished run leaves behind, whether it returned normally
or crashed: an uncaught exception still leaves the statements committed so
far. -/
def runResultDB : Except DB DB → DB
  | .ok d => d
  | .error d => d

/-- The database state carried by a `processAll` outcome. -/
def procDB : Except DB (DB × Nat × Nat) → DB
  | .ok (d, _, _) => d
  | .error d => d

/-- The inputs of one sync run: remote behaviour, flags, watermark and the
clock sample. -/
structure RunInput where
  accessToken : String
  listResp : Nat → List PageResp
  detailResp : Int → DetailResp
  fetchSplits : Bool
  afterTimestamp : Option Nat
  currentYearStart : Nat
  now : Nat

/-- Folding a sequence of sync runs over the database, keeping whatever each
run (successful or crashed) left committed. -/
def runSeq (db : DB) : List RunInput → DB
  | [] => db
  | r :: rs =>
      runSeq
        (runResultDB (syncActivities r.accessToken r.listResp r.detailResp
          r.fetchSplits r.afterTimestamp r.currentYearStart r.now db)) rs

/-- `main` (lines 400-443), without the stats printing: obtain a token (a
falsy token aborts), pick the watermark from the stored cursor (a stored `0`
is falsy in Python and falls back to the initial-sync default), and run the
sync.  Returns the resulting `.env` lines and the run outcome. -/
def mainSync (envAccessToken : Option String) (probes : Nat → Nat)
    (refreshResp : Option TokenData) (envLines : List String)
    (listResp : Nat → List PageResp) (detailResp : Int → DetailResp)
    (fetchSplits : Bool) (currentYearStart : Nat) (now : Nat) (db : DB) :
    List String × Except DB DB :=
  match getAccessToken envAccessToken probes refreshResp envLines with
  | (tok, env2, _) =>
    match tok with
    | none => (env2, .ok db)
    | some t =>
      if t = "" then (env2, .ok db)
      else
        let afterT : Option Nat :=
          match getLastSyncTime db with
          | some ts => if ts = 0 then none else some ts
          | none => none
        (env2, syncActivities t listResp detailResp fetchSplits afterT
          currentYearStart now db)

/-- Required-key wellformedness of a fetched record: the keys whose absence
makes `insert_activity` raise. -/
def wfActivity (a : ActivityData) : Prop :=
  a.id.isSome ∧ a.name.isSome ∧ a.start_date_local.isSome ∧
  a.distance.isSome ∧ a.moving_time.isSome ∧ a.elapsed_time.isSome

/-- Every split row has a parent activity row whose stored category
case-insensitively contains `"run"`. -/
def SplitsParentInv (db : DB) : Prop :=
  ∀ s ∈ db.splits, ∃ a ∈ db.activities, a.id = s.activity_id ∧
    ∃ cat, a.sport_type = some cat ∧ strContains (pyLower cat) "run" = true

/-- All activity rowids are below the autoincrement counter. -/
def IdsBounded (db : DB) : Prop :=
  ∀ a ∈ db.activities, a.id < db.nextId

example : pyOr (some "") (some "Run") = some "Run" := by decide
example : strContains (pyLower "TrailRun") "run" = true := by decide
example : strContains (pyLower "") "run" = false := by decide
example : pyStartsWith "STRAVA_ACCESS_TOKEN=x" "STRAVA_ACCESS_TOKEN=" = true := by decide

/-! ## Concrete sample data used by witnesses and counterexamples -/

/-- A well-formed non-running activity record. -/
def actRide : ActivityData :=
  { id := some 102, name := some "Evening Ride",
    start_date_local := some "2025-03-02T18:00:00Z", sport_type := some "Ride",
    distance := some 20000, moving_time := some 3600, elapsed_time := some 3700 }

/-- A well-formed running activity record. -/
def actRun : ActivityData :=
  { id := some 101, name := some "Morning Run",
    start_date_local := some "2025-03-01T07:00:00Z", sport_type := some "Run",
    distance := some 5000, moving_time := some 1500, elapsed_time := some 1600 }

/-- A malformed record: the required `name` key is absent. -/
def actBad : ActivityData :=
  { id := some 103, start_date_local := some "2025-03-03T07:00:00Z",
    distance := some 1000, moving_time := some 600, elapsed_time := some 650 }

/-- A record with no `sport_type` key whose fallback `type` is a run. -/
def actTypeRun : ActivityData :=
  { id := some 104, name := some "Trail outing",
    start_date_local := some "2025-03-04T07:00:00Z", type := some "TrailRun",
    distance := some 8000, moving_time := some 2400, elapsed_time := some 2500 }

/-- A full first page (exactly the 200-record page cap). -/
def acts200 : List ActivityData := List.replicate 200 actRide

/-- A well-formed split dictionary. -/
def splitOne : SplitData :=
  { split := some 1, distance := some 1000, elapsed_time := some 300,
    moving_time := some 290 }

/-- A detail endpoint that answers every request with a non-success status. -/
def noDetail : Int → DetailResp := fun _ => DetailResp.err 404

/-- A detail endpoint that returns one metric split for every activity. -/
def runDetail : Int → DetailResp :=
  fun _ => DetailResp.ok { splits_metric := some [splitOne] }

/-! ## Helper lemmas about `insertActivity` -/

/-- If the lookup misses and a required key besides `id` is absent, the
insert raises and the database is untouched. -/
lemma insertActivity_missing_req (db : DB) (a : ActivityData) (sid : Int)
    (hid : a.id = some sid)
    (hf : db.activities.find? (fun r => r.strava_id == sid) = none)
    (h : a.name = none ∨ a.start_date_local = none ∨ a.distance = none ∨
         a.moving_time = none ∨ a.elapsed_time = none) :
    insertActivity db a = .error db := by
  simp only [insertActivity, hid, hf]
  rcases hn : a.name with _ | nm <;>
    rcases hsd : a.start_date_local with _ | sd <;>
      rcases hd : a.distance with _ | dist <;>
        rcases hm : a.moving_time with _ | mov <;>
          rcases he : a.elapsed_time with _ | ela <;>
            simp_all

/-! ## C9 — credential refresh rewrites only the access-token line -/

/-- C9: a successful credential refresh rewrites only the access-token line
of the persisted credential file: the refresh returns the new token, the
output has the same number of lines, and every line not starting with
`STRAVA_ACCESS_TOKEN=` (in particular the refresh-token line) appears in the
output verbatim at its original position. -/
theorem c9_refresh_rewrites_only_access_token (td : TokenData) (lines : List String) :
    (refreshAccessToken (some td) lines).1 = some td.access_token ∧
    (refreshAccessToken (some td) lines).2.length = lines.length ∧
    ∀ (i : Nat) (l : String), lines[i]? = some l →
      pyStartsWith l "STRAVA_ACCESS_TOKEN=" = false →
      (refreshAccessToken (some td) lines).2[i]? = some l := by
  refine ⟨rfl, by simp [refreshAccessToken], ?_⟩
  intro i l hl hpre
  simp [refreshAccessToken, List.getElem?_map, hl, hpre]

/-- The credential file used by the C9 witness. -/
def c9lines : List String :=
  ["STRAVA_CLIENT_ID=1\n", "STRAVA_ACCESS_TOKEN=old\n", "STRAVA_REFRESH_TOKEN=r\n"]

/-- C9 witness: on a concrete three-line file the refresh-token line is
preserved verbatim at its position. -/
theorem c9_witness :
    (refreshAccessToken (some { access_token := "new" }) c9lines).2[2]? =
      some "STRAVA_REFRESH_TOKEN=r\n" :=
  (c9_refresh_rewrites_only_access_token { access_token := "new" } c9lines).2.2
    2 "STRAVA_REFRESH_TOKEN=r\n" (by decide) (by decide)

/-! ## C5 — token probe / refresh behaviour -/

/-- C5 (amended): `get_access_token` issues exactly one probe request along
every path.  When the probe returns 401 it invokes the refresh — which
persists the new access token to the credential lines — and returns the
refresh outcome directly, with no second probe.  When the probe returns
anything else it returns the stored token.  If the probe returns 401 and the
refresh fails, the token is `None` and `main` aborts before syncing, leaving
the database and credential lines unchanged. -/
theorem c5_amended (accessToken : Option String) (probes : Nat → Nat)
    (refreshResp : Option TokenData) (envLines : List String) :
    (getAccessToken accessToken probes refreshResp envLines).2.2 = 1 ∧
    (probes 0 = 401 →
      getAccessToken accessToken probes refreshResp envLines =
        ((refreshAccessToken refreshResp envLines).1,
         (refreshAccessToken refreshResp envLines).2, 1)) ∧
    (probes 0 ≠ 401 →
      getAccessToken accessToken probes refreshResp envLines =
        (accessToken, envLines, 1)) ∧
    (probes 0 = 401 → refreshResp = none →
      ∀ listResp detailResp fs cys now db,
        mainSync accessToken probes refreshResp envLines listResp detailResp
            fs cys now db = (envLines, .ok db)) := by
  refine ⟨?_, ?_, ?_, ?_⟩
  · by_cases h : probes 0 = 401 <;> simp [getAccessToken, h]
  · intro h; simp [getAccessToken, h]
  · intro h; simp [getAccessToken, h]
  · intro h hr listResp detailResp fs cys now db
    subst hr
    simp [mainSync, getAccessToken, h, refreshAccessToken]

/-- C5 counterexample: with every probe answering 401 and a successful
refresh, `get_access_token` returns the refreshed token after exactly one
probe request — there is no second probe of the new token (the claim's
"retries the probe once" would have made two probe requests). -/
theorem c5_counterexample :
    getAccessToken (some "oldtok") (fun _ => 401) (some { access_token := "newtok" })
        ["STRAVA_ACCESS_TOKEN=oldtok\n", "STRAVA_REFRESH_TOKEN=r\n"] =
      (some "newtok",
       ["STRAVA_ACCESS_TOKEN=newtok\n", "STRAVA_REFRESH_TOKEN=r\n"], 1) ∧
    (1 : Nat) ≠ 2 := by
  exact ⟨by decide, by decide⟩

/-- C5 witness: a 401 probe with a failed refresh makes `main` abort before
syncing: the database and credential lines are returned unchanged. -/
theorem c5_witness :
    mainSync (some "oldtok") (fun _ => 401) none ["STRAVA_ACCESS_TOKEN=oldtok\n"]
        (fun _ => []) noDetail true 0 5 dbEmpty =
      (["STRAVA_ACCESS_TOKEN=oldtok\n"], .ok dbEmpty) :=
  (c5_amended (some "oldtok") (fun _ => 401) none
      ["STRAVA_ACCESS_TOKEN=oldtok\n"]).2.2.2 rfl rfl (fun _ => []) noDetail true 0 5 dbEmpty

/-! ## C6 — run with an empty listing -/

/-- C6 (amended): a sync run in which the remote listing yields zero
activities returns successfully with the database — including the sync
cursor — completely unchanged; the cursor is *not* advanced. -/
theorem c6_amended (tok : String) (listResp : Nat → List PageResp)
    (detailResp : Int → DetailResp) (fs : Bool) (after : Option Nat)
    (cys now : Nat) (db : DB) :
    getActivitiesSince 200 (listResp (after.getD cys)) = [] →
    syncActivities tok listResp detailResp fs after cys now db = .ok db := by
  intro h
  simp [syncActivities, h]

/-- C6 counterexample: a second run whose listing is an empty page leaves
the stored cursor at its pre-run value 7 instead of advancing it to the new
run instant 99. -/
theorem c6_counterexample :
    syncActivities "tok" (fun _ => [PageResp.ok []]) noDetail true (some 7) 0 99
        { dbEmpty with syncMeta := some 7 } =
      .ok { dbEmpty with syncMeta := some 7 } ∧
    getLastSyncTime (runResultDB (syncActivities "tok" (fun _ => [PageResp.ok []])
        noDetail true (some 7) 0 99 { dbEmpty with syncMeta := some 7 })) = some 7 ∧
    (some 7 : Option Nat) ≠ some 99 := by
  exact ⟨rfl, rfl, by decide⟩

/-- C6 witness: the amended statement applied to a concrete empty listing. -/
theorem c6_witness :
    syncActivities "tok" (fun _ => [PageResp.ok []]) noDetail true (some 3) 0 50
        dbEmpty = .ok dbEmpty :=
  c6_amended "tok" (fun _ => [PageResp.ok []]) noDetail true (some 3) 0 50 dbEmpty rfl

/-! ## C2 — cursor value after a successful run -/

/-- A nonempty list has `isEmpty = false`. -/
lemma isEmpty_false_of_ne_nil {α : Type} (l : List α) (h : l ≠ []) :
    l.isEmpty = false := by
  cases l with
  | nil => exact absurd rfl h
  | cons a as => rfl

/-- C2 (amended): after a successful sync run that fetched at least one
activity, the stored cursor equals the instant `datetime.now` returned
*after the listing was fetched* (line 311) — not an instant captured at the
run's start — and, provided that post-fetch instant is at least every
previously stored cursor value (the clock moved forward), the stored value
is ≥ any previously stored cursor value. -/
theorem c2_amended (tok : String) (listResp : Nat → List PageResp)
    (detailResp : Int → DetailResp) (fs : Bool) (after : Option Nat)
    (cys now : Nat) (db db' : DB) :
    syncActivities tok listResp detailResp fs after cys now db = .ok db' →
    getActivitiesSince 200 (listResp (after.getD cys)) ≠ [] →
    (∀ c0, getLastSyncTime db = some c0 → c0 ≤ now) →
    getLastSyncTime db' = some now ∧
    ∀ c0, getLastSyncTime db = some c0 →
      ∃ c1, getLastSyncTime db' = some c1 ∧ c0 ≤ c1 := by
  intro hrun hne hclock
  have hfalse := isEmpty_false_of_ne_nil _ hne
  simp only [syncActivities, hfalse, Bool.false_eq_true, if_false] at hrun
  have hmain : getLastSyncTime db' = some now := by
    cases hp : processAll detailResp fs db 0 0
        (getActivitiesSince 200 (listResp (after.getD cys))) with
    | error d => rw [hp] at hrun; simp at hrun
    | ok res =>
        rw [hp] at hrun
        obtain ⟨d, n, s⟩ := res
        simp only [Except.ok.injEq] at hrun
        subst hrun
        rfl
  exact ⟨hmain, fun c0 hc0 => ⟨now, hmain, hclock c0 hc0⟩⟩

/-- C2 counterexample: a successful run that begins at instant 0 and whose
fetch completes at instant 5 (the only `datetime.now` sample
`sync_activities` takes for the cursor) stores cursor 5 — the post-fetch
instant — not the run-start instant 0. -/
theorem c2_counterexample :
    getLastSyncTime (runResultDB (syncActivities "tok"
        (fun _ => [PageResp.ok [actRide]]) noDetail true none 0 5 dbEmpty)) =
      some 5 ∧
    getLastSyncTime (runResultDB (syncActivities "tok"
        (fun _ => [PageResp.ok [actRide]]) noDetail true none 0 5 dbEmpty)) ≠
      some 0 := by
  exact ⟨rfl, by decide⟩

/-- C2 witness: the amended statement applied to a concrete run whose
previously stored cursor is 3 and whose post-fetch instant is 9. -/
theorem c2_witness :
    getLastSyncTime (runResultDB (syncActivities "tok"
        (fun _ => [PageResp.ok [actRide]]) noDetail true (some 3) 0 9
        { dbEmpty with syncMeta := some 3 })) = some 9 :=
  (c2_amended "tok" (fun _ => [PageResp.ok [actRide]]) noDetail true (some 3) 0 9
      { dbEmpty with syncMeta := some 3 } _ rfl (by decide)
      (by intro c0 h; have h3 : (some 3 : Option Nat) = some c0 := h
          injection h3 with h4; omega)).1

/-! ## C1 — behaviour on a failing page request -/

/-- C1 (amended): a non-success page response silently terminates the
pagination loop with the records of the earlier pages; no error value is
produced.  A run whose *first* page fails therefore fetches nothing and ends
with the database — cursor included — unchanged, while a failure after a
full first page yields that page's 200 records, which the run then processes
normally (advancing the cursor, as the counterexample shows). -/
theorem c1_amended :
    (∀ (tok : String) (code : Nat) (rest : List PageResp)
       (detailResp : Int → DetailResp) (fs : Bool) (after : Option Nat)
       (cys now : Nat) (db : DB),
       syncActivities tok (fun _ => PageResp.err code :: rest) detailResp fs
         after cys now db = .ok db) ∧
    (∀ (acts : List ActivityData) (code : Nat) (rest : List PageResp),
       acts.length = 200 →
       getActivitiesSince 200 (PageResp.ok acts :: PageResp.err code :: rest) =
         acts) := by
  constructor
  · intro tok code rest detailResp fs after cys now db
    simp [syncActivities, getActivitiesSince]
  · intro acts code rest h
    cases acts with
    | nil => simp at h
    | cons a as => simp [getActivitiesSince, h]

set_option maxRecDepth 40000 in
/-- C1 counterexample: a run whose first page is full (200 records) and
whose second page request fails processes the fetched records and advances
the stored cursor from its pre-run value 7 to 42 — a failing run for which
the stored cursor does not equal its pre-run value. -/
theorem c1_counterexample :
    getLastSyncTime { dbEmpty with syncMeta := some 7 } = some 7 ∧
    getLastSyncTime (runResultDB (syncActivities "tok"
        (fun _ => [PageResp.ok acts200, PageResp.err 500]) noDetail true
        (some 7) 0 42 { dbEmpty with syncMeta := some 7 })) = some 42 ∧
    (some 42 : Option Nat) ≠ some 7 := by
  refine ⟨rfl, ?_, by decide⟩
  rfl

/-- C1 witness: the amended statement applied to a first-page failure (run
is a no-op) and to a concrete full-page-then-error trace. -/
theorem c1_witness :
    syncActivities "tok" (fun _ => [PageResp.err 500]) noDetail true none 0 42
        dbEmpty = .ok dbEmpty ∧
    getActivitiesSince 200 [PageResp.ok acts200, PageResp.err 500] = acts200 :=
  ⟨c1_amended.1 "tok" 500 [] noDetail true none 0 42 dbEmpty,
   c1_amended.2 acts200 500 [] (by rw [acts200, List.length_replicate])⟩

/-! ## C4 — records with a missing required field -/

/-- C4 (amended): a fetched record lacking a required key (`id`, or — when
its id is not already stored — `name`, `distance`, `moving_time`,
`elapsed_time`, or the date) raises an uncaught `KeyError` that aborts the
entire run at that record: the insert writes nothing, the remaining records
are never processed, and the cursor is not advanced.  The run does *not*
skip the record and continue. -/
theorem c4_amended (db : DB) (a : ActivityData) (rest : List ActivityData)
    (detailResp : Int → DetailResp) (fs : Bool) (n s : Nat) :
    (a.id = none ∨ ∃ sid, a.id = some sid ∧
        db.activities.find? (fun r => r.strava_id == sid) = none ∧
        (a.name = none ∨ a.start_date_local = none ∨ a.distance = none ∨
         a.moving_time = none ∨ a.elapsed_time = none)) →
    insertActivity db a = .error db ∧
    processAll detailResp fs db n s (a :: rest) = .error db := by
  intro h
  have herr : insertActivity db a = .error db := by
    rcases h with hid | ⟨sid, hid, hf, hmiss⟩
    · simp [insertActivity, hid]
    · exact insertActivity_missing_req db a sid hid hf hmiss
  refine ⟨herr, ?_⟩
  simp [processAll, herr]

/-- C4 counterexample: a page containing a record without a `name` key
followed by a well-formed record makes the whole run abort with the
database unchanged — the well-formed sibling is never inserted and the
cursor stays untouched, instead of the bad record being skipped. -/
theorem c4_counterexample :
    syncActivities "tok" (fun _ => [PageResp.ok [actBad, actRide]]) noDetail
        true none 0 42 dbEmpty = .error dbEmpty ∧
    (runResultDB (syncActivities "tok" (fun _ => [PageResp.ok [actBad, actRide]])
        noDetail true none 0 42 dbEmpty)).activities = [] := by
  exact ⟨rfl, rfl⟩

/-- C4 witness: the amended statement applied to the concrete malformed
record. -/
theorem c4_witness :
    insertActivity dbEmpty actBad = .error dbEmpty ∧
    processAll noDetail true dbEmpty 0 0 [actBad, actRide] = .error dbEmpty :=
  c4_amended dbEmpty actBad [actRide] noDetail true 0 0
    (Or.inr ⟨103, rfl, rfl, Or.inl rfl⟩)

/-! ## Characterization lemmas for the store operations -/

/-- A crashing `insertActivity` leaves the database untouched. -/
lemma insertActivity_error (db : DB) (a : ActivityData) (d : DB)
    (h : insertActivity db a = .error d) : d = db := by
  unfold insertActivity at h
  cases hid : a.id with
  | none => simp only [hid, Except.error.injEq] at h; exact h.symm
  | some sid =>
    simp only [hid] at h
    cases hf : db.activities.find? (fun r => r.strava_id == sid) with
    | some row => simp only [hf] at h; exact Except.noConfusion h
    | none =>
      simp only [hf] at h
      cases hn : a.name with
      | none => simp only [hn, Except.error.injEq] at h; exact h.symm
      | some nm =>
        simp only [hn] at h
        cases hsd : a.start_date_local with
        | none => simp only [hsd, Except.error.injEq] at h; exact h.symm
        | some sd =>
          simp only [hsd] at h
          cases hd : a.distance with
          | none => simp only [hd, Except.error.injEq] at h; exact h.symm
          | some dist =>
            simp only [hd] at h
            cases hm : a.moving_time with
            | none => simp only [hm, Except.error.injEq] at h; exact h.symm
            | some mov =>
              simp only [hm] at h
              cases he : a.elapsed_time with
              | none => simp only [he, Except.error.injEq] at h; exact h.symm
              | some ela => simp only [he] at h; exact Except.noConfusion h

/-- Shape of a successful `insertActivity`: either a skip that returns the
found row's id and changes nothing, or an insert that appends one new row
carrying the record's external id and the `sport_type or type` category. -/
lemma insertActivity_ok (db : DB) (a : ActivityData) (db1 : DB) (i : Nat)
    (b : Bool) (h : insertActivity db a = .ok (db1, i, b)) :
    (b = false ∧ db1 = db ∧
       ∃ row ∈ db.activities, i = row.id ∧ a.id = some row.strava_id) ∨
    (b = true ∧ i = db.nextId ∧ ∃ row : ActivityRow,
       db1 = { db with activities := db.activities ++ [row],
                       nextId := db.nextId + 1 } ∧
       row.id = db.nextId ∧ row.sport_type = pyOr a.sport_type a.type ∧
       a.id = some row.strava_id) := by
  unfold insertActivity at h
  cases hid : a.id with
  | none => simp only [hid] at h; exact Except.noConfusion h
  | some sid =>
    simp only [hid] at h
    cases hf : db.activities.find? (fun r => r.strava_id == sid) with
    | some row =>
      simp only [hf, Except.ok.injEq, Prod.mk.injEq] at h
      obtain ⟨h1, h2, h3⟩ := h
      refine Or.inl ⟨h3.symm, h1.symm, row, List.mem_of_find?_eq_some hf, h2.symm, ?_⟩
      have hp := List.find?_some hf
      simp only [beq_iff_eq] at hp
      simp [hid, hp]
    | none =>
      simp only [hf] at h
      cases hn : a.name with
      | none => simp only [hn] at h; exact Except.noConfusion h
      | some nm =>
        simp only [hn] at h
        cases hsd : a.start_date_local with
        | none => simp only [hsd] at h; exact Except.noConfusion h
        | some sd =>
          simp only [hsd] at h
          cases hd : a.distance with
          | none => simp only [hd] at h; exact Except.noConfusion h
          | some dist =>
            simp only [hd] at h
            cases hm : a.moving_time with
            | none => simp only [hm] at h; exact Except.noConfusion h
            | some mov =>
              simp only [hm] at h
              cases he : a.elapsed_time with
              | none => simp only [he] at h; exact Except.noConfusion h
              | some ela =>
                simp only [he, Except.ok.injEq, Prod.mk.injEq] at h
                obtain ⟨h1, h2, h3⟩ := h
                refine Or.inr ⟨h3.symm, h2.symm, ?_⟩
                exact ⟨_, h1.symm, rfl, rfl, rfl⟩

/-- The row built for one split dictionary is keyed to the given parent. -/
lemma mkSplitRow_activity_id (i : Nat) (ty : String) (s : SplitData)
    (r : SplitRow) (h : mkSplitRow i ty s = some r) : r.activity_id = i := by
  unfold mkSplitRow at h
  cases h1 : s.split with
  | none => simp [h1] at h
  | some sp =>
    simp only [h1] at h
    cases h2 : s.distance with
    | none => simp [h2] at h
    | some dist =>
      simp only [h2] at h
      cases h3 : s.elapsed_time with
      | none => simp [h3] at h
      | some ela =>
        simp only [h3] at h
        cases h4 : s.moving_time with
        | none => simp [h4] at h
        | some mov =>
          simp only [h4, Option.some.injEq] at h
          subst h
          rfl

/-- Every row produced by `buildSplitRows` is keyed to the given parent. -/
lemma buildSplitRows_activity_id (i : Nat) (ty : String) :
    ∀ (l : List SplitData) (rows : List SplitRow),
      buildSplitRows i ty l = some rows → ∀ r ∈ rows, r.activity_id = i := by
  intro l
  induction l with
  | nil =>
      intro rows h r hr
      simp only [buildSplitRows, Option.some.injEq] at h
      subst h; simp at hr
  | cons s rest ih =>
      intro rows h r hr
      simp only [buildSplitRows] at h
      cases hm : mkSplitRow i ty s with
      | none => simp only [hm] at h; exact Option.noConfusion h
      | some r0 =>
        simp only [hm] at h
        cases hb : buildSplitRows i ty rest with
        | none => simp only [hb] at h; exact Option.noConfusion h
        | some rs =>
          simp only [hb, Option.some.injEq] at h
          subst h
          rcases List.mem_cons.mp hr with h0 | h0
          · subst h0; exact mkSplitRow_activity_id i ty s r hm
          · exact ih rs hb r h0

/-- A crashing `insertSplits` leaves the database untouched. -/
lemma insertSplits_error (db : DB) (i : Nat) (l : List SplitData) (ty : String)
    (d : DB) (h : insertSplits db i l ty = .error d) : d = db := by
  unfold insertSplits at h
  by_cases he : l.isEmpty = true
  · simp [he] at h
  · rw [Bool.not_eq_true] at he
    simp only [he, Bool.false_eq_true, if_false] at h
    cases hb : buildSplitRows i ty l with
    | none => simp only [hb, Except.error.injEq] at h; exact h.symm
    | some rows => simp only [hb] at h; exact Except.noConfusion h

/-- Shape of a successful `insertSplits`: it only appends split rows, all
keyed to the given parent, and touches nothing else. -/
lemma insertSplits_ok (db : DB) (i : Nat) (l : List SplitData) (ty : String)
    (db2 : DB) (c : Nat) (h : insertSplits db i l ty = .ok (db2, c)) :
    db2.activities = db.activities ∧ db2.nextId = db.nextId ∧
    db2.syncMeta = db.syncMeta ∧
    ∃ rows, db2.splits = db.splits ++ rows ∧ ∀ r ∈ rows, r.activity_id = i := by
  unfold insertSplits at h
  by_cases he : l.isEmpty = true
  · simp only [he, if_true, Except.ok.injEq, Prod.mk.injEq] at h
    obtain ⟨h1, -⟩ := h
    subst h1
    exact ⟨rfl, rfl, rfl, [], by simp, by simp⟩
  · rw [Bool.not_eq_true] at he
    simp only [he, Bool.false_eq_true, if_false] at h
    cases hb : buildSplitRows i ty l with
    | none => simp only [hb] at h; exact Except.noConfusion h
    | some rows =>
      simp only [hb, Except.ok.injEq, Prod.mk.injEq] at h
      obtain ⟨h1, -⟩ := h
      subst h1
      exact ⟨rfl, rfl, rfl, rows, rfl, buildSplitRows_activity_id i ty l rows hb⟩

/-- A record passing the enrichment predicate has a nonempty `sport_type`
containing `"run"`, and that string is exactly the category stored for it. -/
lemma isRunActivity_sport_type (a : ActivityData) (h : isRunActivity a = true) :
    ∃ s, a.sport_type = some s ∧ strContains (pyLower s) "run" = true ∧
      pyOr a.sport_type a.type = some s := by
  unfold isRunActivity at h
  cases hs : a.sport_type with
  | none =>
      rw [hs] at h
      simp only [Option.getD_none] at h
      exact absurd h (by decide)
  | some s =>
      rw [hs] at h
      simp only [Option.getD_some] at h
      have hne : s ≠ "" := by
        intro e; subst e; exact absurd h (by decide)
      refine ⟨s, rfl, h, ?_⟩
      simp [pyOr, hne]

/-! ## The growth relation established by a sync run -/

/-- What one sync run (or any prefix of its loop) does to the database:
previous activity rows persist, the rowid counter is monotone, every split
row is either old or keyed to a rowid allocated during the run whose parent
row is stored with a category containing `"run"`, and rowid boundedness is
preserved. -/
def Grows (db db2 : DB) : Prop :=
  (∀ x ∈ db.activities, x ∈ db2.activities) ∧
  db.nextId ≤ db2.nextId ∧
  (∀ sp ∈ db2.splits, sp ∈ db.splits ∨
     (db.nextId ≤ sp.activity_id ∧
      ∃ a ∈ db2.activities, a.id = sp.activity_id ∧
        ∃ cat, a.sport_type = some cat ∧ strContains (pyLower cat) "run" = true)) ∧
  (IdsBounded db → IdsBounded db2)

lemma grows_refl (db : DB) : Grows db db :=
  ⟨fun _ hx => hx, le_refl _, fun _ hsp => Or.inl hsp, fun hb => hb⟩

lemma grows_trans {db db1 db2 : DB} (h1 : Grows db db1) (h2 : Grows db1 db2) :
    Grows db db2 := by
  obtain ⟨m1, n1, s1, b1⟩ := h1
  obtain ⟨m2, n2, s2, b2⟩ := h2
  refine ⟨fun x hx => m2 x (m1 x hx), le_trans n1 n2, ?_, fun hb => b2 (b1 hb)⟩
  intro sp hsp
  rcases s2 sp hsp with hold | ⟨hle, a, ha, hid, cat, hcat, hrun⟩
  · rcases s1 sp hold with hold1 | ⟨hle1, a, ha, hid, cat, hcat, hrun⟩
    · exact Or.inl hold1
    · exact Or.inr ⟨hle1, a, m2 a ha, hid, cat, hcat, hrun⟩
  · exact Or.inr ⟨le_trans n1 hle, a, ha, hid, cat, hcat, hrun⟩

/-- A single insert step (with or without accompanying split rows) grows
the database. -/
lemma grows_of_fields (db db2 : DB) (row : ActivityRow) (rows : List SplitRow)
    (hacts : db2.activities = db.activities ++ [row])
    (hsplits : db2.splits = db.splits ++ rows)
    (hnext : db2.nextId = db.nextId + 1)
    (hrowid : row.id = db.nextId)
    (hkeys : ∀ r ∈ rows, r.activity_id = db.nextId)
    (hcat : rows ≠ [] →
      ∃ cat, row.sport_type = some cat ∧ strContains (pyLower cat) "run" = true) :
    Grows db db2 := by
  refine ⟨?_, ?_, ?_, ?_⟩
  · intro x hx; rw [hacts]; exact List.mem_append_left _ hx
  · rw [hnext]; exact Nat.le_succ _
  · intro sp hsp
    rw [hsplits] at hsp
    rcases List.mem_append.mp hsp with hold | hnew
    · exact Or.inl hold
    · have hkey := hkeys sp hnew
      have hne : rows ≠ [] := by intro e; rw [e] at hnew; simp at hnew
      obtain ⟨cat, hcat1, hcat2⟩ := hcat hne
      refine Or.inr ⟨le_of_eq hkey.symm, row, ?_, by rw [hrowid, hkey], cat, hcat1, hcat2⟩
      rw [hacts]; exact List.mem_append_right _ (List.mem_singleton.mpr rfl)
  · intro hb
    unfold IdsBounded at hb ⊢
    intro x hx
    rw [hacts] at hx
    rw [hnext]
    rcases List.mem_append.mp hx with hx | hx
    · exact Nat.lt_succ_of_lt (hb x hx)
    · rw [List.mem_singleton.mp hx, hrowid]; exact Nat.lt_succ_self _

/-! ## Step equations for the per-record loop -/

/-- A `KeyError` in `insert_activity` aborts the loop. -/
lemma processAll_cons_error (detailResp : Int → DetailResp) (fs : Bool)
    (db : DB) (n s : Nat) (a : ActivityData) (rest : List ActivityData) (d : DB)
    (h : insertActivity db a = .error d) :
    processAll detailResp fs db n s (a :: rest) = .error d := by
  simp [processAll, h]

/-- A record whose external id is already stored is skipped. -/
lemma processAll_cons_skip (detailResp : Int → DetailResp) (fs : Bool)
    (db : DB) (n s : Nat) (a : ActivityData) (rest : List ActivityData)
    (db1 : DB) (i : Nat) (h : insertActivity db a = .ok (db1, i, false)) :
    processAll detailResp fs db n s (a :: rest) =
      processAll detailResp fs db1 n s rest := by
  simp [processAll, h]

/-- A newly inserted record that fails the enrichment gate (splits disabled
or category not a run) is not enriched. -/
lemma processAll_cons_new_notrun (detailResp : Int → DetailResp) (fs : Bool)
    (db : DB) (n s : Nat) (a : ActivityData) (rest : List ActivityData)
    (db1 : DB) (i : Nat) (h : insertActivity db a = .ok (db1, i, true))
    (hrun : (fs && isRunActivity a) = false) :
    processAll detailResp fs db n s (a :: rest) =
      processAll detailResp fs db1 (n + 1) s rest := by
  simp [processAll, h, hrun]

/-- A qualifying new record whose detail fetch fails gets no splits and the
loop continues. -/
lemma processAll_cons_new_run_nodetail (detailResp : Int → DetailResp)
    (fs : Bool) (db : DB) (n s : Nat) (a : ActivityData)
    (rest : List ActivityData) (db1 : DB) (i : Nat) (sid : Int)
    (h : insertActivity db a = .ok (db1, i, true))
    (hrun : (fs && isRunActivity a) = true) (hid : a.id = some sid)
    (hdet : getActivityDetail (detailResp sid) = none) :
    processAll detailResp fs db n s (a :: rest) =
      processAll detailResp fs db1 (n + 1) s rest := by
  simp [processAll, h, hrun, hid, hdet]

/-- A qualifying new record whose detail has no (or an empty) metric-splits
collection gets no splits and the loop continues. -/
lemma processAll_cons_new_run_nosplits (detailResp : Int → DetailResp)
    (fs : Bool) (db : DB) (n s : Nat) (a : ActivityData)
    (rest : List ActivityData) (db1 : DB) (i : Nat) (sid : Int)
    (det : ActivityDetail) (h : insertActivity db a = .ok (db1, i, true))
    (hrun : (fs && isRunActivity a) = true) (hid : a.id = some sid)
    (hdet : getActivityDetail (detailResp sid) = some det)
    (hsm : det.splits_metric = none ∨ det.splits_metric = some []) :
    processAll detailResp fs db n s (a :: rest) =
      processAll detailResp fs db1 (n + 1) s rest := by
  rcases hsm with hsm | hsm <;> simp [processAll, h, hrun, hid, hdet, hsm]

/-- A qualifying new record with a nonempty metric-splits collection whose
bulk insert succeeds: the loop continues from the extended database. -/
lemma processAll_cons_new_run_splits (detailResp : Int → DetailResp)
    (fs : Bool) (db : DB) (n s : Nat) (a : ActivityData)
    (rest : List ActivityData) (db1 : DB) (i : Nat) (sid : Int)
    (det : ActivityDetail) (sp : SplitData) (sps : List SplitData)
    (db2 : DB) (cnt : Nat) (h : insertActivity db a = .ok (db1, i, true))
    (hrun : (fs && isRunActivity a) = true) (hid : a.id = some sid)
    (hdet : getActivityDetail (detailResp sid) = some det)
    (hsm : det.splits_metric = some (sp :: sps))
    (hSp : insertSplits db1 i (sp :: sps) "metric" = .ok (db2, cnt)) :
    processAll detailResp fs db n s (a :: rest) =
      processAll detailResp fs db2 (n + 1) (s + cnt) rest := by
  simp [processAll, h, hrun, hid, hdet, hsm, hSp]

/-- A `KeyError` in `insert_splits` aborts the loop. -/
lemma processAll_cons_new_run_splits_error (detailResp : Int → DetailResp)
    (fs : Bool) (db : DB) (n s : Nat) (a : ActivityData)
    (rest : List ActivityData) (db1 : DB) (i : Nat) (sid : Int)
    (det : ActivityDetail) (sp : SplitData) (sps : List SplitData) (d2 : DB)
    (h : insertActivity db a = .ok (db1, i, true))
    (hrun : (fs && isRunActivity a) = true) (hid : a.id = some sid)
    (hdet : getActivityDetail (detailResp sid) = some det)
    (hsm : det.splits_metric = some (sp :: sps))
    (hSp : insertSplits db1 i (sp :: sps) "metric" = .error d2) :
    processAll detailResp fs db n s (a :: rest) = .error d2 := by
  simp [processAll, h, hrun, hid, hdet, hsm, hSp]

/-- The per-record loop only grows the database, whether it completes or
crashes. -/
lemma processAll_grows (detailResp : Int → DetailResp) (fs : Bool) :
    ∀ (recs : List ActivityData) (db : DB) (n s : Nat),
      Grows db (procDB (processAll detailResp fs db n s recs)) := by
  intro recs
  induction recs with
  | nil => intro db n s; exact grows_refl db
  | cons a rest ih =>
    intro db n s
    cases hIns : insertActivity db a with
    | error d =>
        have hd := insertActivity_error db a d hIns
        rw [processAll_cons_error detailResp fs db n s a rest d hIns, hd]
        exact grows_refl db
    | ok val =>
      obtain ⟨db1, dbId, isNew⟩ := val
      rcases insertActivity_ok db a db1 dbId isNew hIns with
        ⟨hb, hdb, -⟩ | ⟨hb, hdbId, row, hdb1, hrowid, hsport, haid⟩
      · rw [hb] at hIns
        rw [processAll_cons_skip detailResp fs db n s a rest db1 dbId hIns, hdb]
        exact ih db n s
      · rw [hb] at hIns
        have hacts1 : db1.activities = db.activities ++ [row] := by rw [hdb1]
        have hsplits1 : db1.splits = db.splits := by rw [hdb1]
        have hnext1 : db1.nextId = db.nextId + 1 := by rw [hdb1]
        have hstep : Grows db db1 :=
          grows_of_fields db db1 row [] hacts1 (by rw [hsplits1]; simp) hnext1
            hrowid (by simp) (fun hne => absurd rfl hne)
        cases hrun : fs && isRunActivity a with
        | false =>
            rw [processAll_cons_new_notrun detailResp fs db n s a rest db1 dbId
              hIns hrun]
            exact grows_trans hstep (ih db1 (n + 1) s)
        | true =>
          cases hid2 : a.id with
          | none => rw [hid2] at haid; exact Option.noConfusion haid
          | some sid =>
            cases hdet : getActivityDetail (detailResp sid) with
            | none =>
                rw [processAll_cons_new_run_nodetail detailResp fs db n s a rest
                  db1 dbId sid hIns hrun hid2 hdet]
                exact grows_trans hstep (ih db1 (n + 1) s)
            | some det =>
              cases hsm0 : det.splits_metric with
              | none =>
                  rw [processAll_cons_new_run_nosplits detailResp fs db n s a
                    rest db1 dbId sid det hIns hrun hid2 hdet (Or.inl hsm0)]
                  exact grows_trans hstep (ih db1 (n + 1) s)
              | some l =>
                cases l with
                | nil =>
                    rw [processAll_cons_new_run_nosplits detailResp fs db n s a
                      rest db1 dbId sid det hIns hrun hid2 hdet (Or.inr hsm0)]
                    exact grows_trans hstep (ih db1 (n + 1) s)
                | cons sp sps =>
                  cases hSp : insertSplits db1 dbId (sp :: sps) "metric" with
                  | error d2 =>
                      have hd2 := insertSplits_error db1 dbId (sp :: sps)
                        "metric" d2 hSp
                      rw [processAll_cons_new_run_splits_error detailResp fs db
                        n s a rest db1 dbId sid det sp sps d2 hIns hrun hid2
                        hdet hsm0 hSp, hd2]
                      exact hstep
                  | ok val2 =>
                    obtain ⟨db2, cnt⟩ := val2
                    obtain ⟨ha2, hn2, -, rows, hs2, hkeys2⟩ :=
                      insertSplits_ok db1 dbId (sp :: sps) "metric" db2 cnt hSp
                    have hrun2 : isRunActivity a = true := by
                      simp only [Bool.and_eq_true] at hrun
                      exact hrun.2
                    obtain ⟨cat, -, hcat2, hcat3⟩ :=
                      isRunActivity_sport_type a hrun2
                    have hstep2 : Grows db db2 := by
                      refine grows_of_fields db db2 row rows ?_ ?_ ?_ hrowid ?_ ?_
                      · rw [ha2, hacts1]
                      · rw [hs2, hsplits1]
                      · rw [hn2, hnext1]
                      · intro r hr
                        rw [hkeys2 r hr, hdbId]
                      · intro _
                        exact ⟨cat, by rw [hsport, hcat3], hcat2⟩
                    rw [processAll_cons_new_run_splits detailResp fs db n s a
                      rest db1 dbId sid det sp sps db2 cnt hIns hrun hid2 hdet
                      hsm0 hSp]
                    exact grows_trans hstep2 (ih db2 (n + 1) (s + cnt))

/-- A whole sync run — successful, aborted early, or crashed — only grows
the database. -/
lemma syncActivities_grows (tok : String) (listResp : Nat → List PageResp)
    (detailResp : Int → DetailResp) (fs : Bool) (after : Option Nat)
    (cys now : Nat) (db : DB) :
    Grows db (runResultDB
      (syncActivities tok listResp detailResp fs after cys now db)) := by
  by_cases hE : (getActivitiesSince 200 (listResp (after.getD cys))).isEmpty = true
  · simp only [syncActivities, hE, if_true]
    exact grows_refl db
  · rw [Bool.not_eq_true] at hE
    simp only [syncActivities, hE, Bool.false_eq_true, if_false]
    have hg := processAll_grows detailResp fs
      (getActivitiesSince 200 (listResp (after.getD cys))) db 0 0
    cases hp : processAll detailResp fs db 0 0
        (getActivitiesSince 200 (listResp (after.getD cys))) with
    | error d =>
        rw [hp] at hg
        exact hg
    | ok val =>
        obtain ⟨d, n2, s2⟩ := val
        rw [hp] at hg
        obtain ⟨m1, n1, s1, b1⟩ := hg
        exact ⟨m1, n1, s1, b1⟩

/-- One sync run preserves the splits-have-running-parents invariant. -/
lemma splitsParentInv_of_grows {db db2 : DB} (hg : Grows db db2)
    (hinv : SplitsParentInv db) : SplitsParentInv db2 := by
  obtain ⟨hm, -, hs, -⟩ := hg
  unfold SplitsParentInv at hinv ⊢
  intro sp hsp
  rcases hs sp hsp with hold | ⟨-, a, ha, hid, cat, hcat, hrun⟩
  · obtain ⟨p, hp, hpid, c, hc1, hc2⟩ := hinv sp hold
    exact ⟨p, hm p hp, hpid, c, hc1, hc2⟩
  · exact ⟨a, ha, hid, cat, hcat, hrun⟩

/-- Any sequence of sync runs preserves the invariant. -/
lemma runSeq_inv (rs : List RunInput) :
    ∀ db : DB, SplitsParentInv db → SplitsParentInv (runSeq db rs) := by
  induction rs with
  | nil => intro db h; exact h
  | cons r rest ih =>
      intro db h
      exact ih _ (splitsParentInv_of_grows
        (syncActivities_grows r.accessToken r.listResp r.detailResp
          r.fetchSplits r.afterTimestamp r.currentYearStart r.now db) h)

/-! ## C7 — enrichment gating of split records -/

/-- C7: split rows exist only under parents whose stored category
case-insensitively contains `"run"` — the invariant holds after any sequence
of sync runs if it held before — and a single run inserts split rows only
for parent activities created during that run: every split row present
after a run is either an old one or keyed to none of the pre-run activity
rows. -/
theorem c7_enrichment_gating (db : DB) :
    (SplitsParentInv db → ∀ rs : List RunInput, SplitsParentInv (runSeq db rs)) ∧
    (IdsBounded db →
      ∀ (tok : String) (listResp : Nat → List PageResp)
        (detailResp : Int → DetailResp) (fs : Bool) (after : Option Nat)
        (cys now : Nat),
        ∀ sp ∈ (runResultDB (syncActivities tok listResp detailResp fs after
            cys now db)).splits,
          sp ∈ db.splits ∨ ∀ x ∈ db.activities, x.id ≠ sp.activity_id) := by
  constructor
  · intro h rs
    exact runSeq_inv rs db h
  · intro hb tok listResp detailResp fs after cys now sp hsp
    obtain ⟨-, -, hs, -⟩ :=
      syncActivities_grows tok listResp detailResp fs after cys now db
    rcases hs sp hsp with hold | ⟨hle, -⟩
    · exact Or.inl hold
    · refine Or.inr fun x hx => ?_
      have hlt : x.id < db.nextId := hb x hx
      omega

/-- The single concrete run used by the C7 witness: one page with one
running activity, the detail endpoint returning one metric split. -/
def c7run : RunInput :=
  { accessToken := "tok"
    listResp := fun _ => [PageResp.ok [actRun]]
    detailResp := runDetail
    fetchSplits := true
    afterTimestamp := none
    currentYearStart := 0
    now := 5 }

/-- C7 witness: starting from the empty store, a concrete run that inserts
a running activity with one split satisfies the invariant. -/
theorem c7_witness : SplitsParentInv (runSeq dbEmpty [c7run]) :=
  (c7_enrichment_gating dbEmpty).1
    (by intro sp hsp; simp [dbEmpty] at hsp) [c7run]

/-! ## C8 — detail-fetch failures are best-effort -/

/-- C8: a qualifying (newly inserted, running) record whose detail fetch
returns a non-success response — or whose detail lacks a `splits_metric`
collection, or has an empty one — still has its parent activity row stored,
receives zero split rows, and the loop simply continues with the remaining
records from the post-insert state. -/
theorem c8_detail_failure_best_effort (db : DB) (a : ActivityData)
    (rest : List ActivityData) (sid : Int) (detailResp : Int → DetailResp)
    (n s : Nat) (db1 : DB) (dbId : Nat) :
    a.id = some sid →
    insertActivity db a = .ok (db1, dbId, true) →
    isRunActivity a = true →
    (getActivityDetail (detailResp sid) = none ∨
      ∃ det, getActivityDetail (detailResp sid) = some det ∧
        (det.splits_metric = none ∨ det.splits_metric = some [])) →
    db1.splits = db.splits ∧
    (∃ row, db1.activities = db.activities ++ [row] ∧ row.strava_id = sid ∧
       row ∈ (procDB (processAll detailResp true db n s (a :: rest))).activities) ∧
    processAll detailResp true db n s (a :: rest) =
      processAll detailResp true db1 (n + 1) s rest := by
  intro hid hIns hrun hdet
  have hrunb : (true && isRunActivity a) = true := by simp [hrun]
  have hstep : processAll detailResp true db n s (a :: rest) =
      processAll detailResp true db1 (n + 1) s rest := by
    rcases hdet with hdet | ⟨det, hdet, hsm⟩
    · exact processAll_cons_new_run_nodetail detailResp true db n s a rest db1
        dbId sid hIns hrunb hid hdet
    · exact processAll_cons_new_run_nosplits detailResp true db n s a rest db1
        dbId sid det hIns hrunb hid hdet hsm
  rcases insertActivity_ok db a db1 dbId true hIns with
    ⟨hc, -⟩ | ⟨-, -, row, hdb1, -, -, haid⟩
  · exact absurd hc (by decide)
  · have hsid : row.strava_id = sid := by
      rw [hid] at haid
      injection haid with h2
      exact h2.symm
    refine ⟨by rw [hdb1], ⟨row, by rw [hdb1], hsid, ?_⟩, hstep⟩
    rw [hstep]
    have hg1 := processAll_grows detailResp true rest db1 (n + 1) s
    exact hg1.1 row
      (by rw [hdb1]; exact List.mem_append_right _ (List.mem_singleton.mpr rfl))

/-- The database state after inserting the one running activity of the C8
witness run (its detail fetch fails, so no splits). -/
def c8db1 : DB := procDB (processAll noDetail true dbEmpty 0 0 [actRun])

/-- C8 witness: the concrete running activity whose detail endpoint answers
404 is stored with zero splits, and the loop continues. -/
theorem c8_witness :
    c8db1.splits = dbEmpty.splits ∧
    processAll noDetail true dbEmpty 0 0 [actRun, actRide] =
      processAll noDetail true c8db1 1 0 [actRide] := by
  have h := c8_detail_failure_best_effort dbEmpty actRun [actRide] 101 noDetail
    0 0 c8db1 1 rfl rfl (by decide) (Or.inl rfl)
  exact ⟨h.1, h.2.2⟩

/-! ## C10 — sport_type fallback versus the enrichment predicate -/

/-- C10: a record with no `sport_type` key whose fallback `type` is a
running category is stored as a run (the stored category comes from `type`),
yet the enrichment predicate — which reads only `sport_type` — rejects it,
so the loop continues without ever consulting the detail endpoint and the
record gets zero splits, for every detail endpoint and flag setting. -/
theorem c10_type_fallback_skips_enrichment (db : DB) (a : ActivityData)
    (rest : List ActivityData) (t : String) (db1 : DB) (dbId : Nat) :
    a.sport_type = none →
    a.type = some t →
    strContains (pyLower t) "run" = true →
    insertActivity db a = .ok (db1, dbId, true) →
    isRunActivity a = false ∧
    (∃ row, db1.activities = db.activities ++ [row] ∧
       row.sport_type = some t) ∧
    db1.splits = db.splits ∧
    ∀ (detailResp : Int → DetailResp) (fs : Bool) (n s : Nat),
      processAll detailResp fs db n s (a :: rest) =
        processAll detailResp fs db1 (n + 1) s rest := by
  intro hst hty hcontains hIns
  have hnotrun : isRunActivity a = false := by
    unfold isRunActivity
    rw [hst]
    simp only [Option.getD_none]
    decide
  rcases insertActivity_ok db a db1 dbId true hIns with
    ⟨hc, -⟩ | ⟨-, -, row, hdb1, -, hsport, -⟩
  · exact absurd hc (by decide)
  · have hrowt : row.sport_type = some t := by
      rw [hsport, hst, hty]; rfl
    refine ⟨hnotrun, ⟨row, by rw [hdb1], hrowt⟩, by rw [hdb1], ?_⟩
    intro detailResp fs n s
    exact processAll_cons_new_notrun detailResp fs db n s a rest db1 dbId hIns
      (by simp [hnotrun])

/-- The database state after inserting the C10 witness record. -/
def c10db1 : DB := procDB (processAll runDetail true dbEmpty 0 0 [actTypeRun])

/-- C10 witness: the concrete record with `type = "TrailRun"` and no
`sport_type` is inserted but not enriched, even though the detail endpoint
would have returned a split. -/
theorem c10_witness :
    isRunActivity actTypeRun = false ∧
    c10db1.splits = dbEmpty.splits ∧
    processAll runDetail true dbEmpty 0 0 [actTypeRun] =
      processAll runDetail true c10db1 1 0 [] := by
  have h := c10_type_fallback_skips_enrichment dbEmpty actTypeRun [] "TrailRun"
    c10db1 1 rfl rfl (by decide) rfl
  exact ⟨h.1, h.2.2.1, h.2.2.2 runDetail true 0 0⟩

/-! ## C3 — upsert semantics and idempotent re-runs -/

/-- A stored external id is always found by the lookup. -/
lemma find?_of_mem_strava (l : List ActivityRow) (sid : Int)
    (h : ∃ row ∈ l, row.strava_id = sid) :
    ∃ row, l.find? (fun r => r.strava_id == sid) = some row := by
  induction l with
  | nil =>
      obtain ⟨r, hr, -⟩ := h
      exact absurd hr (List.not_mem_nil r)
  | cons x xs ih =>
      by_cases hx : x.strava_id = sid
      · exact ⟨x, List.find?_cons_of_pos _ (by simp [hx])⟩
      · obtain ⟨r, hr, hrs⟩ := h
        rcases List.mem_cons.mp hr with h0 | h0
        · rw [h0] at hrs; exact absurd hrs hx
        · obtain ⟨row, hrow⟩ := ih ⟨r, h0, hrs⟩
          exact ⟨row, by rw [List.find?_cons_of_neg _ (by simp [hx]), hrow]⟩

/-- After a completed loop, every processed record's external id is present
in the resulting activities table. -/
lemma processAll_ok_ids (detailResp : Int → DetailResp) (fs : Bool) :
    ∀ (recs : List ActivityData) (db : DB) (n s : Nat) (db1 : DB) (n1 s1 : Nat),
      processAll detailResp fs db n s recs = .ok (db1, n1, s1) →
      ∀ r ∈ recs, ∃ sid, r.id = some sid ∧
        ∃ row ∈ db1.activities, row.strava_id = sid := by
  intro recs
  induction recs with
  | nil =>
      intro db n s db1 n1 s1 h r hr
      exact absurd hr (List.not_mem_nil r)
  | cons a rest ih =>
    intro db n s db1 n1 s1 h r hr
    cases hIns : insertActivity db a with
    | error d =>
        rw [processAll_cons_error detailResp fs db n s a rest d hIns] at h
        exact Except.noConfusion h
    | ok val =>
      obtain ⟨dbm, dbId, isNew⟩ := val
      rcases insertActivity_ok db a dbm dbId isNew hIns with
        ⟨hb, hdb, rowx, hrowmem, -, haid⟩ |
        ⟨hb, hdbId, rowx, hdbm, -, -, haid⟩
      · -- skip step
        rw [hb] at hIns
        rw [processAll_cons_skip detailResp fs db n s a rest dbm dbId hIns] at h
        rcases List.mem_cons.mp hr with h0 | h0
        · subst h0
          refine ⟨rowx.strava_id, haid, rowx, ?_, rfl⟩
          have hg := processAll_grows detailResp fs rest dbm n s
          rw [h] at hg
          exact hg.1 rowx (by rw [hdb]; exact hrowmem)
        · exact ih dbm n s db1 n1 s1 h r h0
      · -- insert step
        rw [hb] at hIns
        have hmemx : rowx ∈ dbm.activities := by
          rw [hdbm]
          exact List.mem_append_right _ (List.mem_singleton.mpr rfl)
        have hdone : ∀ (dbX : DB) (nX sX : Nat),
            rowx ∈ dbX.activities →
            processAll detailResp fs dbX nX sX rest = .ok (db1, n1, s1) →
            ∃ sid, r.id = some sid ∧
              ∃ row ∈ db1.activities, row.strava_id = sid := by
          intro dbX nX sX hmem hX
          rcases List.mem_cons.mp hr with h0 | h0
          · subst h0
            refine ⟨rowx.strava_id, haid, rowx, ?_, rfl⟩
            have hg := processAll_grows detailResp fs rest dbX nX sX
            rw [hX] at hg
            exact hg.1 rowx hmem
          · exact ih dbX nX sX db1 n1 s1 hX r h0
        cases hrun : fs && isRunActivity a with
        | false =>
            rw [processAll_cons_new_notrun detailResp fs db n s a rest dbm dbId
              hIns hrun] at h
            exact hdone dbm (n + 1) s hmemx h
        | true =>
          cases hid2 : a.id with
          | none => rw [hid2] at haid; exact Option.noConfusion haid
          | some sid =>
            cases hdet : getActivityDetail (detailResp sid) with
            | none =>
                rw [processAll_cons_new_run_nodetail detailResp fs db n s a rest
                  dbm dbId sid hIns hrun hid2 hdet] at h
                exact hdone dbm (n + 1) s hmemx h
            | some det =>
              cases hsm0 : det.splits_metric with
              | none =>
                  rw [processAll_cons_new_run_nosplits detailResp fs db n s a
                    rest dbm dbId sid det hIns hrun hid2 hdet (Or.inl hsm0)] at h
                  exact hdone dbm (n + 1) s hmemx h
              | some l =>
                cases l with
                | nil =>
                    rw [processAll_cons_new_run_nosplits detailResp fs db n s a
                      rest dbm dbId sid det hIns hrun hid2 hdet (Or.inr hsm0)] at h
                    exact hdone dbm (n + 1) s hmemx h
                | cons sp sps =>
                  cases hSp : insertSplits dbm dbId (sp :: sps) "metric" with
                  | error d2 =>
                      rw [processAll_cons_new_run_splits_error detailResp fs db
                        n s a rest dbm dbId sid det sp sps d2 hIns hrun hid2
                        hdet hsm0 hSp] at h
                      exact Except.noConfusion h
                  | ok val2 =>
                    obtain ⟨db2, cnt⟩ := val2
                    obtain ⟨ha2, -, -, -⟩ :=
                      insertSplits_ok dbm dbId (sp :: sps) "metric" db2 cnt hSp
                    rw [processAll_cons_new_run_splits detailResp fs db n s a
                      rest dbm dbId sid det sp sps db2 cnt hIns hrun hid2 hdet
                      hsm0 hSp] at h
                    exact hdone db2 (n + 1) (s + cnt)
                      (by rw [ha2]; exact hmemx) h

/-- A loop over records whose external ids are all already stored is a
no-op: every record is skipped, nothing is written and nothing raises. -/
lemma processAll_second (detailResp : Int → DetailResp) (fs : Bool) :
    ∀ (recs : List ActivityData) (db : DB) (n s : Nat),
      (∀ r ∈ recs, ∃ sid, r.id = some sid ∧
         ∃ row ∈ db.activities, row.strava_id = sid) →
      processAll detailResp fs db n s recs = .ok (db, n, s) := by
  intro recs
  induction recs with
  | nil => intro db n s _; rfl
  | cons a rest ih =>
    intro db n s h
    obtain ⟨sid, hid, hrow⟩ := h a (List.mem_cons_self a rest)
    obtain ⟨row0, hfind⟩ := find?_of_mem_strava db.activities sid hrow
    have hIns : insertActivity db a = .ok (db, row0.id, false) := by
      simp only [insertActivity, hid, hfind]
    rw [processAll_cons_skip detailResp fs db n s a rest db row0.id hIns]
    exact ih db n s (fun r hr => h r (List.mem_cons_of_mem a hr))

/-- C3: the upsert looks the record up by external id first; a hit returns
the stored rowid with `was_inserted = false` and performs no write; a miss
(for a record with its required keys) inserts exactly one new row carrying
that external id and returns the fresh rowid with `was_inserted = true`; and
re-running a completed loop over the same records against the resulting
store changes nothing, inserts nothing and raises no error. -/
theorem c3_upsert_idempotent :
    (∀ (db : DB) (a : ActivityData) (sid : Int) (row : ActivityRow),
       a.id = some sid →
       db.activities.find? (fun r => r.strava_id == sid) = some row →
       insertActivity db a = .ok (db, row.id, false)) ∧
    (∀ (db : DB) (a : ActivityData) (sid : Int),
       a.id = some sid →
       db.activities.find? (fun r => r.strava_id == sid) = none →
       wfActivity a →
       ∃ (db' : DB) (row : ActivityRow),
         insertActivity db a = .ok (db', db.nextId, true) ∧
         db'.activities = db.activities ++ [row] ∧
         db'.nextId = db.nextId + 1 ∧ db'.splits = db.splits ∧
         row.strava_id = sid ∧ row.id = db.nextId) ∧
    (∀ (detailResp : Int → DetailResp) (fs : Bool) (recs : List ActivityData)
       (db db1 : DB) (n s n1 s1 : Nat),
       processAll detailResp fs db n s recs = .ok (db1, n1, s1) →
       processAll detailResp fs db1 n s recs = .ok (db1, n, s)) := by
  refine ⟨?_, ?_, ?_⟩
  · intro db a sid row hid hf
    simp only [insertActivity, hid, hf]
  · intro db a sid hid hf hwf
    obtain ⟨-, hn, hsd, hd, hm, he⟩ := hwf
    rw [Option.isSome_iff_exists] at hn hsd hd hm he
    obtain ⟨nm, hn⟩ := hn
    obtain ⟨sd, hsd⟩ := hsd
    obtain ⟨dist, hd⟩ := hd
    obtain ⟨mov, hm⟩ := hm
    obtain ⟨ela, he⟩ := he
    cases hIns : insertActivity db a with
    | error d =>
        simp only [insertActivity, hid, hf, hn, hsd, hd, hm, he] at hIns
        exact Except.noConfusion hIns
    | ok val =>
      obtain ⟨db', i, b⟩ := val
      rcases insertActivity_ok db a db' i b hIns with
        ⟨-, -, rowx, hmem, -, haid⟩ | ⟨hb, hi, rowx, hdb', hrid, -, haid⟩
      · exfalso
        have hxs : rowx.strava_id = sid := by
          rw [hid] at haid; injection haid with h2; exact h2.symm
        obtain ⟨rfound, hfound⟩ :=
          find?_of_mem_strava db.activities sid ⟨rowx, hmem, hxs⟩
        rw [hfound] at hf
        exact Option.noConfusion hf
      · subst hb; subst hi
        refine ⟨db', rowx, rfl, by rw [hdb'], by rw [hdb'], by rw [hdb'],
          ?_, hrid⟩
        rw [hid] at haid; injection haid with h2; exact h2.symm
  · intro detailResp fs recs db db1 n s n1 s1 h
    exact processAll_second detailResp fs recs db1 n s
      (processAll_ok_ids detailResp fs recs db n s db1 n1 s1 h)

/-- The store after one completed loop over the two witness records. -/
def c3db1 : DB := procDB (processAll noDetail true dbEmpty 0 0 [actRun, actRide])

/-- C3 witness: re-running the loop over the same two records against the
resulting store returns it unchanged with zero new insertions and no
error. -/
theorem c3_witness :
    processAll noDetail true c3db1 0 0 [actRun, actRide] = .ok (c3db1, 0, 0) :=
  c3_upsert_idempotent.2.2 noDetail true [actRun, actRide] dbEmpty c3db1 0 0 2 0 rfl

/-! ## Sanity checks that the witness runs are non-vacuous -/

example : (runSeq dbEmpty [c7run]).splits.length = 1 := rfl
example : (runSeq dbEmpty [c7run]).activities.length = 1 := rfl
example : c8db1.activities.length = 1 ∧ c8db1.splits = [] := ⟨rfl, rfl⟩
example : c3db1.activities.length = 2 ∧ c3db1.splits = [] := ⟨rfl, rfl⟩
example : c10db1.activities.length = 1 ∧ c10db1.splits = [] := ⟨rfl, rfl⟩
